import Mathlib

/-!
Verification development for the `analytics` service of mbh.photos
(`src/analytics/app.py`): a shallow embedding of the anonymization,
ingestion, retention and aggregation pipeline, together with theorems
settling the frozen specification claims.

Conventions of the embedding:
* Python `str` is modelled by Lean `String`; Python slicing `s[:n]`
  (by code points) is `pytake`.
* Python machine-free `int` is `Nat`/`Int`; 32-bit wrap-around inside
  SHA-256 is explicit `% 2 ^ 32`.
* Fallible operations return `Option`/`Except`.
* sqlite TEXT comparison (BINARY collation, i.e. byte order, here on
  ASCII data) is `sqliteStrLt`.
-/

namespace Analytics

/-! ## Generic string helpers -/

/-- Python slicing `s[:n]` (first `n` code points). -/
def pytake (s : String) (n : Nat) : String := ⟨s.data.take n⟩

/-- Split a character list at every occurrence of `c`
(Python `str.split(sep)` for a one-character separator). -/
def splitOnChar (c : Char) : List Char → List (List Char)
  | [] => [[]]
  | x :: t =>
    match splitOnChar c t with
    | [] => [[]]
    | h :: hs => if x = c then [] :: h :: hs else (x :: h) :: hs

/-- Python substring test `pat in hay`. -/
def listContains (hay pat : List Char) : Bool :=
  hay.tails.any (fun t => pat.isPrefixOf t)

/-- Python `pat in s` on strings. -/
def strContains (hay pat : String) : Bool := listContains hay.data pat.data

/-- Python `str.lower()`; Lean's `Char.toLower` lowercases the ASCII
range, which is all the classifier's patterns ever probe. -/
def pyLower (s : String) : String := ⟨s.data.map Char.toLower⟩

/-- Lexicographic order on character lists by code point; on the ASCII
data stored by this service this is exactly sqlite's BINARY collation
(byte order on UTF-8). -/
def charListLt : List Char → List Char → Bool
  | [], [] => false
  | [], _ :: _ => true
  | _ :: _, [] => false
  | a :: as, b :: bs =>
    if a.toNat < b.toNat then true
    else if b.toNat < a.toNat then false
    else charListLt as bs

/-- sqlite TEXT `<` comparison. -/
def sqliteStrLt (a b : String) : Bool := charListLt a.data b.data

/-- Lowercase hexadecimal digit for a value `< 16`. -/
def hexChar (n : Nat) : Char :=
  if n < 10 then Char.ofNat (48 + n) else Char.ofNat (87 + n)

/-- Big-endian, zero-padded base-16 rendering of `v` on `w` digits
(Python `'%04x'`-style formatting, and byte-wise `hexdigest`). -/
def toHexPad : Nat → Nat → List Char
  | 0, _ => []
  | w + 1, v => toHexPad w (v / 16) ++ [hexChar (v % 16)]

/-- Unpadded lowercase hex of a value (Python `'%x' % v`), used when the
IPv4 trailer of an IPv6 literal is rewritten to two hextets. -/
def toHexShort (v : Nat) : List Char :=
  if v = 0 then ['0'] else (toHexPad 32 v).dropWhile (· = '0')

/-- Decimal rendering padded to `w` digits (`'%02d'`). -/
def toDecPad : Nat → Nat → List Char
  | 0, _ => []
  | w + 1, v => toDecPad w (v / 10) ++ [Char.ofNat (48 + v % 10)]

/-- UTF-8 encoding of one code point (Python `str.encode("utf-8")`). -/
def utf8Char (c : Char) : List Nat :=
  let n := c.toNat
  if n < 128 then [n]
  else if n < 2048 then [192 + n / 64, 128 + n % 64]
  else if n < 65536 then [224 + n / 4096, 128 + n / 64 % 64, 128 + n % 64]
  else [240 + n / 262144, 128 + n / 4096 % 64, 128 + n / 64 % 64, 128 + n % 64]

/-- UTF-8 encoding of a string as a byte (`Nat < 256`) list. -/
def utf8 (s : String) : List Nat := s.data.flatMap utf8Char

/-! ## SHA-256 and HMAC (FIPS 180-4 / RFC 2104, the semantics of
Python's `hashlib.sha256` and `hmac.new(..., hashlib.sha256)`). -/

/-- Truncation to a 32-bit word. -/
def w32 (n : Nat) : Nat := n % 4294967296

/-- 32-bit right rotation (argument assumed `< 2 ^ 32`). -/
def rotr32 (n x : Nat) : Nat := w32 ((x >>> n) ||| (x <<< (32 - n)))

/-- The eight 32-bit words of SHA-256 working state. -/
structure Hash8 where
  h0 : Nat
  h1 : Nat
  h2 : Nat
  h3 : Nat
  h4 : Nat
  h5 : Nat
  h6 : Nat
  h7 : Nat

/-- SHA-256 initial hash value (FIPS 180-4 §5.3.3, written in
decimal). -/
def sha256Init : Hash8 :=
  ⟨1779033703, 3144134277, 1013904242, 2773480762,
   1359893119, 2600822924, 528734635, 1541459225⟩

/-- SHA-256 round constants (FIPS 180-4 §4.2.2, written in decimal). -/
def sha256K : List Nat :=
  [1116352408, 1899447441, 3049323471, 3921009573,
   961987163, 1508970993, 2453635748, 2870763221,
   3624381080, 310598401, 607225278, 1426881987,
   1925078388, 2162078206, 2614888103, 3248222580,
   3835390401, 4022224774, 264347078, 604807628,
   770255983, 1249150122, 1555081692, 1996064986,
   2554220882, 2821834349, 2952996808, 3210313671,
   3336571891, 3584528711, 113926993, 338241895,
   666307205, 773529912, 1294757372, 1396182291,
   1695183700, 1986661051, 2177026350, 2456956037,
   2730485921, 2820302411, 3259730800, 3345764771,
   3516065817, 3600352804, 4094571909, 275423344,
   430227734, 506948616, 659060556, 883997877,
   958139571, 1322822218, 1537002063, 1747873779,
   1955562222, 2024104815, 2227730452, 2361852424,
   2428436474, 2756734187, 3204031479, 3329325298]

/-- Big-endian 4-byte grouping of a chunk into 32-bit words. -/
def bytesToWordsBE : List Nat → List Nat
  | b0 :: b1 :: b2 :: b3 :: rest =>
    (((b0 * 256 + b1) * 256 + b2) * 256 + b3) :: bytesToWordsBE rest
  | _ => []

/-- Extend the 16-word message block to the 64-word schedule
(`k` is the number of words still to append). -/
def scheduleExtend : Nat → List Nat → List Nat
  | 0, ws => ws
  | k + 1, ws =>
    let i := ws.length
    let w15 := ws.getD (i - 15) 0
    let w2 := ws.getD (i - 2) 0
    let s0 := (rotr32 7 w15) ^^^ (rotr32 18 w15) ^^^ (w15 >>> 3)
    let s1 := (rotr32 17 w2) ^^^ (rotr32 19 w2) ^^^ (w2 >>> 10)
    scheduleExtend k (ws ++ [w32 (ws.getD (i - 16) 0 + s0 + ws.getD (i - 7) 0 + s1)])

/-- One SHA-256 compression round, consuming a `(kᵢ, wᵢ)` pair. -/
def sha256Round (st : Hash8) (kw : Nat × Nat) : Hash8 :=
  let s1 := (rotr32 6 st.h4) ^^^ (rotr32 11 st.h4) ^^^ (rotr32 25 st.h4)
  let ch := (st.h4 &&& st.h5) ^^^ ((st.h4 ^^^ 4294967295) &&& st.h6)
  let t1 := w32 (st.h7 + s1 + ch + kw.1 + kw.2)
  let s0 := (rotr32 2 st.h0) ^^^ (rotr32 13 st.h0) ^^^ (rotr32 22 st.h0)
  let mj := (st.h0 &&& st.h1) ^^^ (st.h0 &&& st.h2) ^^^ (st.h1 &&& st.h2)
  let t2 := w32 (s0 + mj)
  ⟨w32 (t1 + t2), st.h0, st.h1, st.h2, w32 (st.h3 + t1), st.h4, st.h5, st.h6⟩

/-- Compress one 64-byte chunk into the running hash state. -/
def compressChunk (st : Hash8) (chunk : List Nat) : Hash8 :=
  let ws := scheduleExtend 48 (bytesToWordsBE chunk)
  let r := (sha256K.zip ws).foldl sha256Round st
  ⟨w32 (st.h0 + r.h0), w32 (st.h1 + r.h1), w32 (st.h2 + r.h2), w32 (st.h3 + r.h3),
   w32 (st.h4 + r.h4), w32 (st.h5 + r.h5), w32 (st.h6 + r.h6), w32 (st.h7 + r.h7)⟩

/-- Big-endian byte rendering of a value on `w` bytes. -/
def toBytesBE : Nat → Nat → List Nat
  | 0, _ => []
  | w + 1, v => toBytesBE w (v / 256) ++ [v % 256]

/-- SHA-256 message padding: `0x80`, zeros to 56 mod 64, then the
64-bit big-endian bit length. -/
def padMsg (msg : List Nat) : List Nat :=
  let l := msg.length
  msg ++ [128] ++ List.replicate ((119 - l % 64) % 64) 0
      ++ toBytesBE 8 ((l * 8) % 18446744073709551616)

/-- Split a byte list into 64-byte chunks; the fuel (an upper bound on
the chunk count, here the length itself) keeps the recursion structural
so that concrete digests reduce inside the kernel. -/
def chunks64Fuel : Nat → List Nat → List (List Nat)
  | 0, _ => []
  | _ + 1, [] => []
  | fuel + 1, x :: t => (x :: t).take 64 :: chunks64Fuel fuel ((x :: t).drop 64)

/-- Split a byte list into 64-byte chunks. -/
def chunks64 (l : List Nat) : List (List Nat) := chunks64Fuel l.length l

/-- Big-endian bytes of one hash word. -/
def wordBytesBE (w : Nat) : List Nat :=
  [w / 16777216 % 256, w / 65536 % 256, w / 256 % 256, w % 256]

/-- The 32-byte digest of a final hash state. -/
def digestBytes (st : Hash8) : List Nat :=
  wordBytesBE st.h0 ++ wordBytesBE st.h1 ++ wordBytesBE st.h2 ++ wordBytesBE st.h3 ++
  wordBytesBE st.h4 ++ wordBytesBE st.h5 ++ wordBytesBE st.h6 ++ wordBytesBE st.h7

/-- SHA-256 of a byte list, as 32 bytes. -/
def sha256 (msg : List Nat) : List Nat :=
  digestBytes ((chunks64 (padMsg msg)).foldl compressChunk sha256Init)

/-- HMAC-SHA-256 (`hmac.new(key, msg, hashlib.sha256)`), block size 64. -/
def hmacSha256 (key msg : List Nat) : List Nat :=
  let k0 := if 64 < key.length then sha256 key else key
  let kp := k0 ++ List.replicate (64 - k0.length) 0
  sha256 ((kp.map (fun b => b ^^^ 92)) ++ sha256 ((kp.map (fun b => b ^^^ 54)) ++ msg))

/-- Python's `.hexdigest()`: each digest byte as two lowercase hex digits. -/
def hexdigest (bytes : List Nat) : String := ⟨bytes.flatMap (toHexPad 2)⟩

/-! ## IP address parsing (the semantics of `ipaddress.ip_address` on
strings: dotted-quad IPv4 first, then full IPv6 with `::` compression,
IPv4 trailer and `%scope`). -/

/-- ASCII decimal digit. -/
def isDigitChar (c : Char) : Bool := 48 ≤ c.toNat && c.toNat ≤ 57

/-- ASCII hexadecimal digit, either case (Python `string.hexdigits`). -/
def isHexDigitChar (c : Char) : Bool :=
  isDigitChar c || (97 ≤ c.toNat && c.toNat ≤ 102) || (65 ≤ c.toNat && c.toNat ≤ 70)

/-- Value of an ASCII hexadecimal digit. -/
def hexDigitVal (c : Char) : Nat :=
  if 97 ≤ c.toNat then c.toNat - 87
  else if 65 ≤ c.toNat then c.toNat - 55
  else c.toNat - 48

/-- `ipaddress._parse_octet`: 1–3 ASCII digits, no leading zero,
value at most 255. -/
def parseOctet (p : List Char) : Option Nat :=
  if p = [] then none
  else if ¬ p.all isDigitChar then none
  else if 3 < p.length then none
  else if 1 < p.length ∧ p.headD 'x' = '0' then none
  else
    let v := p.foldl (fun a c => a * 10 + (c.toNat - 48)) 0
    if v ≤ 255 then some v else none

/-- `IPv4Address` string parsing: exactly four dot-separated octets. -/
def parseIPv4 (s : String) : Option (List Nat) :=
  let parts := splitOnChar '.' s.data
  if parts.length = 4 then parts.mapM parseOctet else none

/-- `ipaddress._parse_hextet`: 1–4 ASCII hex digits. -/
def parseHextet (p : List Char) : Option Nat :=
  if p = [] then none
  else if ¬ p.all isHexDigitChar then none
  else if 4 < p.length then none
  else some (p.foldl (fun a c => a * 16 + hexDigitVal c) 0)

/-- Split a character list at the first occurrence of `c`
(Python `str.partition` / locating `str.find`). -/
def splitFirst (c : Char) : List Char → Option (List Char × List Char)
  | [] => none
  | x :: t =>
    if x = c then some ([], t)
    else (splitFirst c t).map (fun p => (x :: p.1, p.2))

/-- `IPv6Address._ip_int_from_string` on the colon-separated parts
(after any IPv4 trailer has been rewritten to two hextets). -/
def parseIPv6Parts (parts : List (List Char)) : Option Nat :=
  if 9 < parts.length then none
  else
    let n := parts.length
    let mids := (parts.drop 1).dropLast
    let emptyIdxs := (List.range mids.length).filter (fun i => mids.getD i ['x'] = [])
    match emptyIdxs with
    | [] =>
      -- no `::`: exactly eight non-empty hextets
      if n ≠ 8 then none
      else if parts.headD [] = [] then none
      else if parts.getLastD [] = [] then none
      else
        match parts.mapM parseHextet with
        | some vs => some (vs.foldl (fun a v => a * 65536 + v) 0)
        | none => none
    | [i] =>
      -- one `::` at parts index `i + 1`
      let skip := i + 1
      let hiOpt : Option Nat :=
        if parts.headD ['x'] = [] then (if skip = 1 then some 0 else none)
        else some skip
      let loOpt : Option Nat :=
        if parts.getLastD ['x'] = [] then (if n - skip - 1 = 1 then some 0 else none)
        else some (n - skip - 1)
      match hiOpt, loOpt with
      | some hi, some lo =>
        if 7 < hi + lo then none
        else
          match (parts.take hi).mapM parseHextet, (parts.drop (n - lo)).mapM parseHextet with
          | some hvs, some lvs =>
            let a1 := hvs.foldl (fun a v => a * 65536 + v) 0
            let a2 := a1 * 65536 ^ (8 - (hi + lo))
            some (lvs.foldl (fun a v => a * 65536 + v) a2)
          | _, _ => none
      | _, _ => none
    | _ => none

/-- `IPv6Address` string parsing: optional `%scope`, at least three
colon-separated parts, optional dotted-quad trailer. -/
def parseIPv6 (s : String) : Option Nat :=
  let addr : Option (List Char) :=
    match splitOnChar '%' s.data with
    | [a] => some a
    | [a, scope] => if scope = [] then none else some a
    | _ => none
  match addr with
  | none => none
  | some l =>
    let parts0 := splitOnChar ':' l
    if parts0.length < 3 then none
    else
      let lastP := parts0.getLastD []
      let partsOpt : Option (List (List Char)) :=
        if lastP.contains '.' then
          match parseIPv4 ⟨lastP⟩ with
          | some o4 =>
            let v := ((o4.getD 0 0 * 256 + o4.getD 1 0) * 256 + o4.getD 2 0) * 256
                       + o4.getD 3 0
            some (parts0.dropLast ++ [toHexShort (v / 65536), toHexShort (v % 65536)])
          | none => none
        else some parts0
      match partsOpt with
      | none => none
      | some parts => parseIPv6Parts parts

/-- Result of `ipaddress.ip_address`: the address family, with the
128-bit value for IPv6 (the IPv4 branch of `anonymize_ip` re-reads the
raw text, so only validity matters there). -/
inductive IPKind where
  | v4 : IPKind
  | v6 : Nat → IPKind

/-- `ipaddress.ip_address` on a string: IPv4 first, then IPv6,
`none` when both fail (Python raises `ValueError`). -/
def ip_address (s : String) : Option IPKind :=
  match parseIPv4 s with
  | some _ => some .v4
  | none =>
    match parseIPv6 s with
    | some n => some (.v6 n)
    | none => none

/-- `IPv6Address.exploded`: eight fully padded lowercase hextets. -/
def ipv6Exploded (n : Nat) : String :=
  ⟨(List.range 8).flatMap
    (fun i => (if i = 0 then [] else [':']) ++ toHexPad 4 (n / 65536 ^ (7 - i) % 65536))⟩

/-- `anonymize_ip` (src/analytics/app.py:166): bucket/truncate the
address then HMAC it with the secret salt; `IP_SALT` is passed
explicitly since it is process-wide configuration. -/
def anonymize_ip (salt : String) (raw_ip : String) : String :=
  match ip_address raw_ip with
  | none => "invalid"
  | some kind =>
    let tv : String × String :=
      match kind with
      | .v4 =>
        let octets := splitOnChar '.' raw_ip.data
        if octets.length = 4 then
          ((⟨octets.getD 0 []⟩ : String) ++ "." ++ (⟨octets.getD 1 []⟩ : String) ++ ".0.0",
           "v4")
        else ("0.0.0.0", "v4")
      | .v6 asInt =>
        -- IPv6: keep ~top /32 bits
        let mask :=
          340282366920938463463374607431768211455 ^^^ 79228162514264337593543950335
        (ipv6Exploded (asInt &&& mask), "v6")
    tv.2 ++ ":" ++ pytake (hexdigest (hmacSha256 (utf8 salt) (utf8 tv.1))) 16

/-! ## User-agent classification and referrer sanitization -/

/-- `parse_user_agent` (src/analytics/app.py:196): coarse browser and
OS classification by case-insensitive substring matching in a fixed
priority order. -/
def parse_user_agent (ua : String) : String × String :=
  let ua_lower := pyLower ua
  let browser :=
    if strContains ua_lower "firefox" ∧ ¬ strContains ua_lower "seamonkey" then "Firefox"
    else if strContains ua_lower "chrome" ∧ ¬ strContains ua_lower "chromium"
        ∧ ¬ strContains ua_lower "edg" then "Chrome"
    else if strContains ua_lower "safari" ∧ ¬ strContains ua_lower "chrome" then "Safari"
    else if strContains ua_lower "edg" then "Edge"
    else if strContains ua_lower "chromium" then "Chromium"
    else "Other"
  let os_name :=
    if strContains ua_lower "windows" then "Windows"
    else if strContains ua_lower "mac os x" ∨ strContains ua_lower "macintosh" then "macOS"
    else if strContains ua_lower "android" then "Android"
    else if strContains ua_lower "iphone" ∨ strContains ua_lower "ipad"
        ∨ strContains ua_lower "ios" then "iOS"
    else if strContains ua_lower "linux" then "Linux"
    else "Other"
  (browser, os_name)

/-- Hostname extraction of `urllib.parse.urlparse(...).hostname`:
strip a scheme, read the netloc after `//`, drop userinfo and port,
lowercase; `.error` models the `ValueError` on unbalanced brackets. -/
def urlHostname (s : String) : Except Unit (Option String) :=
  let l := s.data
  -- scheme: `<alpha><alnum+-.>* :` is stripped
  let rest : List Char :=
    match splitFirst ':' l with
    | some (sch, r) =>
      if sch ≠ [] ∧ (sch.headD ' ').isAlpha
          ∧ sch.all (fun c => c.isAlpha ∨ c.isDigit ∨ c = '+' ∨ c = '-' ∨ c = '.')
      then r else l
    | none => l
  let netloc : List Char :=
    match rest with
    | '/' :: '/' :: r => r.takeWhile (fun c => c ≠ '/' ∧ c ≠ '?' ∧ c ≠ '#')
    | _ => []
  if (netloc.contains '[' ∧ ¬ netloc.contains ']')
      ∨ (netloc.contains ']' ∧ ¬ netloc.contains '[') then .error ()
  else
    -- after the last `@` (userinfo)
    let hostinfo : List Char :=
      match splitFirst '@' netloc.reverse with
      | some (pre, _) => pre.reverse
      | none => netloc
    let hostname : List Char :=
      match splitFirst '[' hostinfo with
      | some (_, bracketed) =>
        match splitFirst ']' bracketed with
        | some (inner, _) => inner
        | none => bracketed
      | none =>
        match splitFirst ':' hostinfo with
        | some (h, _) => h
        | none => hostinfo
    if hostname = [] then .ok none
    else .ok (some (pyLower ⟨hostname⟩))

/-- `sanitize_referrer` (src/analytics/app.py:232): keep only the
hostname of the Referer header; `none` for an absent or empty header
and for any parsing error. -/
def sanitize_referrer (raw_ref : Option String) : Option String :=
  match raw_ref with
  | none => none
  | some s =>
    if s = "" then none
    else
      match urlHostname s with
      | .error _ => none
      | .ok h => h

/-! ## Geo resolution and the request fingerprint -/

/-- Outcome of one lookup in the MaxMind country database:
`found` carries `country.iso_code` and `registered_country.iso_code`
(`none` models Python `None`/empty, which are falsy), the other two
constructors model `AddressNotFoundError` and `ValueError`. -/
inductive GeoOutcome where
  | found : Option String → Option String → GeoOutcome
  | notFound : GeoOutcome
  | invalid : GeoOutcome

/-- `get_country_from_ip` (src/analytics/app.py:244): `UNK` when no
reader is configured, the address is empty, the lookup misses or the
address is invalid; otherwise the primary ISO code, falling back to the
registered-country code, falling back to `UNK`. -/
def get_country_from_ip (reader : Option (String → GeoOutcome)) (raw_ip : String) : String :=
  match reader with
  | none => "UNK"
  | some lookup =>
    if raw_ip = "" then "UNK"
    else
      match lookup raw_ip with
      | .found iso reg => ((iso.orElse (fun _ => reg)).getD "UNK")
      | .notFound => "UNK"
      | .invalid => "UNK"

/-- The anonymized per-request metadata tuple. -/
structure Meta where
  ip_bucket : String
  country : String
  ua_browser : String
  ua_os : String

/-- `request_fingerprint` (src/analytics/app.py:259): the source
address is the verbatim `X-Forwarded-For` header when present, else the
transport remote address; bucket, country and agent categories are all
derived from it. -/
def request_fingerprint (salt : String) (reader : Option (String → GeoOutcome))
    (xff : Option String) (remote_addr : String) (user_agent : Option String) : Meta :=
  let src_ip := xff.getD remote_addr
  let ip_bucket := anonymize_ip salt src_ip
  let country_code := get_country_from_ip reader src_ip
  let ua := parse_user_agent (user_agent.getD "")
  { ip_bucket := ip_bucket, country := country_code,
    ua_browser := ua.1, ua_os := ua.2 }

/-! ## JSON values (the result of `request.get_json(silent=True)`;
Flask's parser itself is abstracted: an absent or non-JSON body is
`none`, a parsed body is `some` of its value). -/

inductive Json where
  | null : Json
  | bool : Bool → Json
  | num : Int → Json
  | str : String → Json
  | arr : List Json → Json
  | obj : List (String × Json) → Json

/-- Python truthiness of a parsed JSON value (`data or {}`). -/
def pyTruthy : Json → Bool
  | .null => false
  | .bool b => b
  | .num n => n ≠ 0
  | .str s => s ≠ ""
  | .arr l => ¬ l.isEmpty
  | .obj l => ¬ l.isEmpty

/-- `dict.get` on a parsed JSON object (later duplicate keys win, as in
Python's `json` decoder). -/
def jsonGet (fields : List (String × Json)) (key : String) : Option Json :=
  (fields.reverse.find? (fun kv => kv.1 = key)).map (fun kv => kv.2)

mutual

/-- Python `str()` of a parsed JSON value. -/
def pyStr : Json → String
  | .null => "None"
  | .bool b => if b then "True" else "False"
  | .num n => toString n
  | .str s => s
  | .arr l => "[" ++ pyReprList l ++ "]"
  | .obj l => "\x7b" ++ pyReprPairs l ++ "\x7d"

/-- Python `repr()` (element rendering inside containers); string
escaping inside quotes is not reproduced, no claim depends on it. -/
def pyRepr : Json → String
  | .str s => "'" ++ s ++ "'"
  | .null => "None"
  | .bool b => if b then "True" else "False"
  | .num n => toString n
  | .arr l => "[" ++ pyReprList l ++ "]"
  | .obj l => "\x7b" ++ pyReprPairs l ++ "\x7d"

/-- Comma-joined `repr`s of list elements. -/
def pyReprList : List Json → String
  | [] => ""
  | [j] => pyRepr j
  | j :: rest => pyRepr j ++ ", " ++ pyReprList rest

/-- Comma-joined `'key': repr` pairs of a dict. -/
def pyReprPairs : List (String × Json) → String
  | [] => ""
  | [(k, v)] => "'" ++ k ++ "': " ++ pyRepr v
  | (k, v) :: rest => "'" ++ k ++ "': " ++ pyRepr v ++ ", " ++ pyReprPairs rest

end

/-! ## Timestamps and the two tables -/

/-- A UTC wall-clock instant at second precision. -/
structure DateTime where
  year : Nat
  month : Nat
  day : Nat
  hour : Nat
  minute : Nat
  second : Nat

/-- Chronological strict order on instants (lexicographic on the
fields, which agrees with time order for calendar-valid values). -/
def dtLt (a b : DateTime) : Bool :=
  if a.year ≠ b.year then a.year < b.year
  else if a.month ≠ b.month then a.month < b.month
  else if a.day ≠ b.day then a.day < b.day
  else if a.hour ≠ b.hour then a.hour < b.hour
  else if a.minute ≠ b.minute then a.minute < b.minute
  else a.second < b.second

/-- `datetime.now(timezone.utc).isoformat(timespec="seconds")`:
`YYYY-MM-DDTHH:MM:SS+00:00`. -/
def fmtIso (t : DateTime) : String :=
  ⟨toDecPad 4 t.year ++ ['-'] ++ toDecPad 2 t.month ++ ['-'] ++ toDecPad 2 t.day
    ++ ['T'] ++ toDecPad 2 t.hour ++ [':'] ++ toDecPad 2 t.minute
    ++ [':'] ++ toDecPad 2 t.second ++ "+00:00".data⟩

/-- sqlite `datetime(...)` text: `YYYY-MM-DD HH:MM:SS`. -/
def fmtSql (t : DateTime) : String :=
  ⟨toDecPad 4 t.year ++ ['-'] ++ toDecPad 2 t.month ++ ['-'] ++ toDecPad 2 t.day
    ++ [' '] ++ toDecPad 2 t.hour ++ [':'] ++ toDecPad 2 t.minute
    ++ [':'] ++ toDecPad 2 t.second⟩

/-- One row of the `pageviews` table. -/
structure PageviewRow where
  ts : String
  path : String
  referrer : Option String
  ua_browser : String
  ua_os : String
  ip_bucket : String
  country : String

/-- One row of the `events` table. -/
structure EventRow where
  ts : String
  event_type : String
  page_path : String
  target : Option String
  ua_browser : String
  ua_os : String
  ip_bucket : String
  country : String

/-- The stored rows of the two append-only tables. -/
structure Db where
  pageviews : List PageviewRow
  events : List EventRow

/-! ## Retention purge (the `before` hook, src/analytics/app.py:140)

`DELETE FROM ... WHERE ts < datetime('now', '-N days')` compares the
stored TEXT timestamps with sqlite's cutoff text under BINARY
collation; `cutoff` is the already-shifted instant
`now - RETENTION_DAYS days`. -/
def before_purge (db : Db) (cutoff : DateTime) : Db :=
  { pageviews := db.pageviews.filter (fun r => ¬ sqliteStrLt r.ts (fmtSql cutoff)),
    events := db.events.filter (fun r => ¬ sqliteStrLt r.ts (fmtSql cutoff)) }

/-! ## Schema migration (`ensure_columns`, src/analytics/app.py:73)

The schema of one table is its column-name list (`none`: the table does
not exist). `probeAddColumn` mirrors the probe-then-alter step:
`SELECT col` raises exactly when the column is missing, in which case
`ALTER TABLE ADD COLUMN` runs (which itself would raise on a duplicate
column). -/

/-- Storage state: the two table schemas and their rows. -/
structure Storage where
  pvCols : Option (List String)
  evCols : Option (List String)
  pvRows : List PageviewRow
  evRows : List EventRow

/-- Columns of `CREATE TABLE IF NOT EXISTS pageviews (...)`. -/
def pvBaseCols : List String :=
  ["id", "ts", "path", "referrer", "ua_browser", "ua_os", "ip_bucket", "country"]

/-- Columns of `CREATE TABLE IF NOT EXISTS events (...)`. -/
def evBaseCols : List String :=
  ["id", "ts", "event_type", "page_path", "target", "ua_browser", "ua_os",
   "ip_bucket", "country"]

/-- Column names probed for `pageviews` on upgrade. -/
def pvExpected : List String :=
  ["ts", "path", "referrer", "ua_browser", "ua_os", "ip_bucket", "country"]

/-- Column names probed for `events` on upgrade. -/
def evExpected : List String :=
  ["ts", "event_type", "page_path", "target", "ua_browser", "ua_os",
   "ip_bucket", "country"]

/-- `ALTER TABLE t ADD COLUMN c`: duplicate columns are an error. -/
def alterAddColumn (cols : List String) (c : String) : Except String (List String) :=
  if c ∈ cols then .error "duplicate column name" else .ok (cols ++ [c])

/-- `try: SELECT c FROM t except OperationalError: ALTER TABLE ADD c`. -/
def probeAddColumn (cols : List String) (c : String) : Except String (List String) :=
  if c ∈ cols then .ok cols else alterAddColumn cols c

/-- `CREATE TABLE IF NOT EXISTS`. -/
def createIfMissing (t : Option (List String)) (base : List String) : List String :=
  t.getD base

/-- `ensure_columns`: create both tables if missing, then probe-and-add
every expected column. -/
def ensure_columns (s : Storage) : Except String Storage :=
  match pvExpected.foldlM probeAddColumn (createIfMissing s.pvCols pvBaseCols) with
  | .error e => .error e
  | .ok pv =>
    match evExpected.foldlM probeAddColumn (createIfMissing s.evCols evBaseCols) with
    | .error e => .error e
    | .ok ev =>
      .ok { pvCols := some pv, evCols := some ev, pvRows := s.pvRows, evRows := s.evRows }

/-! ## Ingestion endpoints -/

/-- Responses of the ingest routes (bodies and headers are out of
scope; what matters is which success shape is returned). -/
inductive Resp where
  | pixelGif : Resp
  | empty200 : Resp
  | okJson : Resp

/-- The tracking-pixel endpoint (src/analytics/app.py:310): fingerprint
the request, read the `p` query parameter and the Referer hostname,
insert exactly one `pageviews` row, answer the GIF. -/
def pixel (salt : String) (reader : Option (String → GeoOutcome)) (db : Db)
    (xff : Option String) (remote_addr : String)
    (user_agent referer p : Option String) (now : DateTime) : Db × Resp :=
  let meta := request_fingerprint salt reader xff remote_addr user_agent
  let path := p.getD "/"
  let ref := sanitize_referrer referer
  let row : PageviewRow :=
    { ts := fmtIso now,
      path := pytake path 500,
      referrer := match ref with
        | some r => if r = "" then none else some (pytake r 255)
        | none => none,
      ua_browser := pytake meta.ua_browser 50,
      ua_os := pytake meta.ua_os 50,
      ip_bucket := pytake meta.ip_bucket 80,
      country := pytake meta.country 4 }
  ({ db with pageviews := db.pageviews ++ [row] }, .pixelGif)

/-- HTTP methods accepted by `/event`. -/
inductive Method where
  | post : Method
  | options : Method

/-- The custom-event endpoint (src/analytics/app.py:350). `body` is the
result of `request.get_json(silent=True)` (`none` for an absent or
unparseable body). A truthy non-object body reaches `data.get` and
raises `AttributeError`, modelled as `.error`; nothing has been
inserted at that point. -/
def event (salt : String) (reader : Option (String → GeoOutcome)) (db : Db)
    (method : Method) (body : Option Json) (xff : Option String)
    (remote_addr : String) (user_agent : Option String) (now : DateTime) :
    Except String (Db × Resp) :=
  match method with
  | .options => .ok (db, .empty200)
  | .post =>
    let data : Json :=
      match body with
      | some j => if pyTruthy j then j else .obj []
      | none => .obj []
    match data with
    | .obj fields =>
      let event_type := pytake (match jsonGet fields "type" with
        | some v => pyStr v
        | none => "unknown") 50
      let page_path := pytake (match jsonGet fields "page" with
        | some v => pyStr v
        | none => "/") 500
      let target : Option String :=
        match jsonGet fields "target" with
        | some .null => none
        | some v => some (pytake (pyStr v) 500)
        | none => none
      let meta := request_fingerprint salt reader xff remote_addr user_agent
      let row : EventRow :=
        { ts := fmtIso now, event_type := event_type, page_path := page_path,
          target := target,
          ua_browser := pytake meta.ua_browser 50,
          ua_os := pytake meta.ua_os 50,
          ip_bucket := pytake meta.ip_bucket 80,
          country := pytake meta.country 4 }
      .ok ({ db with events := db.events ++ [row] }, .okJson)
    | _ => .error "AttributeError: no attribute get"

/-! ## Dashboard aggregation (the `/stats` queries,
src/analytics/app.py:452)

`cutoff` is the text of `datetime('now', '-30 days')`; the `WHERE
ts >= cutoff` filter is sqlite TEXT comparison. `GROUP BY path` with
`ORDER BY views DESC LIMIT 50` is modelled with a stable descending
sort (the tie order among equal counts is unspecified storage order in
sqlite; no theorem below depends on it). -/

/-- `ts >= datetime('now', '-30 days')` under TEXT comparison. -/
def inWindow (cutoff ts : String) : Bool := ¬ sqliteStrLt ts cutoff

/-- The pageview rows of the 30-day window. -/
def windowPageviews (db : Db) (cutoff : String) : List PageviewRow :=
  db.pageviews.filter (fun r => inWindow cutoff r.ts)

/-- `GROUP BY path` with `COUNT(*)`. -/
def pathGroups (rows : List PageviewRow) : List (String × Nat) :=
  let ps := rows.map (fun r => r.path)
  ps.dedup.map (fun p => (p, ps.count p))

/-- Stable insertion into a count-descending list (a concrete
realization of `ORDER BY views DESC`; sqlite's tie order is
unspecified, and no theorem depends on which order this picks). -/
def insertDesc (x : String × Nat) : List (String × Nat) → List (String × Nat)
  | [] => [x]
  | y :: ys => if y.2 < x.2 then x :: y :: ys else y :: insertDesc x ys

/-- Stable sort by count descending. -/
def sortByCountDesc (l : List (String × Nat)) : List (String × Nat) :=
  l.foldr insertDesc []

/-- The `recent_paths` query: group, order by count descending, cap 50. -/
def recent_paths (db : Db) (cutoff : String) : List (String × Nat) :=
  (sortByCountDesc (pathGroups (windowPageviews db cutoff))).take 50

/-- `total_views_30d = sum(row["views"] for row in recent_paths)`. -/
def total_views_30d (db : Db) (cutoff : String) : Nat :=
  ((recent_paths db cutoff).map (fun g => g.2)).sum

/-! ## Sparkline renderer (`build_sparkline`, src/analytics/app.py:397)

Counts come from `COUNT(*)` so they are naturals; coordinate arithmetic
is exact in `ℚ` (the claims below concern exact endpoint values, which
Python's floats also hit exactly). The SVG text assembled around the
coordinates is presentation and is not modelled. -/

/-- `[p[1] for p in points]`. -/
def countsOf (points : List (String × Nat)) : List Nat := points.map (fun q => q.2)

/-- Python `min` on a nonempty list (0 for `[]`, unused). -/
def minCount : List Nat → Nat
  | [] => 0
  | c :: cs => cs.foldl Nat.min c

/-- Python `max` on a nonempty list (0 for `[]`, unused). -/
def maxCount : List Nat → Nat
  | [] => 0
  | c :: cs => cs.foldl Nat.max c

/-- `max_c = max(counts) or 1` followed by
`span_c = max_c - min_c or 1` (named so theorems can speak about it). -/
def spanC (counts : List Nat) : Nat :=
  let maxRaw := maxCount counts
  let max_c := if maxRaw = 0 then 1 else maxRaw
  if max_c - minCount counts = 0 then 1 else max_c - minCount counts

/-- The geometry computed by `build_sparkline`: the x and y coordinates
of the polyline and the headline last value. -/
structure Spark where
  xs : List ℚ
  ys : List ℚ
  last_count : Nat

/-- `build_sparkline`: empty chart for no points, else evenly spaced x
(centered single point) and counts mapped through
`height - ((c - min) / span) * (height - 4) - 2` with
`max_c = max(counts) or 1` and `span_c = max_c - min_c or 1`. -/
def build_sparkline (points : List (String × Nat)) (width height : ℚ) : Spark :=
  match points with
  | [] => ⟨[], [], 0⟩
  | p :: rest =>
    let counts := countsOf (p :: rest)
    let min_c := minCount counts
    let span_c := spanC counts
    let n := (p :: rest).length
    let xs : List ℚ :=
      if n = 1 then [width / 2]
      else (List.range n).map (fun i => (i : ℚ) * (width / ((n : ℚ) - 1)))
    let ys : List ℚ := counts.map (fun c =>
      height - (((c - min_c : Nat) : ℚ) / (span_c : ℚ)) * (height - 4) - 2)
    ⟨xs, ys, ((p :: rest).getLast (List.cons_ne_nil p rest)).2⟩

/-! ## Lemmas: hex digests and the bucket shape -/

/-- Lowercase hexadecimal character (`0-9a-f`), the alphabet of
Python's `hexdigest`. -/
def isHexLower (c : Char) : Bool :=
  (48 ≤ c.toNat && c.toNat ≤ 57) || (97 ≤ c.toNat && c.toNat ≤ 102)

theorem isHexLower_hexChar {n : Nat} (h : n < 16) : isHexLower (hexChar n) = true := by
  have hall : ∀ m, m < 16 → isHexLower (hexChar m) = true := by decide
  exact hall n h

theorem length_toHexPad (w : Nat) : ∀ v, (toHexPad w v).length = w := by
  induction w with
  | zero => intro v; rfl
  | succ w ih => intro v; simp [toHexPad, ih]

theorem mem_toHexPad {w : Nat} : ∀ {v : Nat} {c : Char}, c ∈ toHexPad w v →
    isHexLower c = true := by
  induction w with
  | zero => intro v c h; simp [toHexPad] at h
  | succ w ih =>
    intro v c h
    simp only [toHexPad, List.mem_append, List.mem_singleton] at h
    rcases h with h | h
    · exact ih h
    · subst h; exact isHexLower_hexChar (Nat.mod_lt _ (by omega))

theorem length_digestBytes (st : Hash8) : (digestBytes st).length = 32 := by
  simp [digestBytes, wordBytesBE]

theorem length_flatMap_hex (bs : List Nat) :
    (bs.flatMap (toHexPad 2)).length = 2 * bs.length := by
  induction bs with
  | nil => rfl
  | cons b bs ih => simp [List.flatMap_cons, length_toHexPad, ih]; omega

theorem mem_flatMap_hex {bs : List Nat} {c : Char} (h : c ∈ bs.flatMap (toHexPad 2)) :
    isHexLower c = true := by
  rcases List.mem_flatMap.mp h with ⟨a, _, hc⟩
  exact mem_toHexPad hc

theorem hexdigest_hmac_length (key m : List Nat) :
    (hexdigest (hmacSha256 key m)).data.length = 64 := by
  show ((digestBytes _).flatMap (toHexPad 2)).length = 64
  rw [length_flatMap_hex, length_digestBytes]

theorem hexdigest_hmac_hex (key m : List Nat) {c : Char}
    (h : c ∈ (hexdigest (hmacSha256 key m)).data) : isHexLower c = true :=
  mem_flatMap_hex h

/-- The shape every stored `ip_bucket` must have: the sentinel
`invalid`, or a `v4:`/`v6:` tag followed by exactly 16 lowercase hex
characters. -/
def bucketShape (s : String) : Prop :=
  s = "invalid" ∨
  ∃ t : List Char,
    (s.data = 'v' :: '4' :: ':' :: t ∨ s.data = 'v' :: '6' :: ':' :: t) ∧
    t.length = 16 ∧ ∀ c ∈ t, isHexLower c = true

theorem bucketShape_tag (v : String) (hv : v = "v4" ∨ v = "v6") (key m : List Nat) :
    bucketShape (v ++ ":" ++ pytake (hexdigest (hmacSha256 key m)) 16) := by
  refine Or.inr ⟨(hexdigest (hmacSha256 key m)).data.take 16, ?_, ?_, ?_⟩
  · rcases hv with hv | hv <;> subst hv
    · exact Or.inl (by simp [pytake])
    · exact Or.inr (by simp [pytake])
  · rw [List.length_take, hexdigest_hmac_length]; omega
  · intro c hc
    exact hexdigest_hmac_hex key m (List.mem_of_mem_take hc)

theorem anonymize_ip_shape (salt raw : String) : bucketShape (anonymize_ip salt raw) := by
  unfold anonymize_ip
  cases ip_address raw with
  | none => exact Or.inl rfl
  | some kind =>
    cases kind with
    | v4 =>
      by_cases h4 : (splitOnChar '.' raw.data).length = 4 <;>
        simp only [h4, if_true, if_false, reduceIte] <;>
        exact bucketShape_tag "v4" (Or.inl rfl) _ _
    | v6 n => exact bucketShape_tag "v6" (Or.inr rfl) _ _

/-- A well-shaped bucket is at most 19 characters, so the `[:80]`
truncation before storage is the identity. -/
theorem pytake80_of_bucketShape {s : String} (h : bucketShape s) : pytake s 80 = s := by
  have hlen : s.data.length ≤ 80 := by
    rcases h with h | ⟨t, ht, hlen, _⟩
    · subst h; decide
    · rcases ht with ht | ht <;> rw [ht] <;> simp [hlen]
  show String.mk (s.data.take 80) = s
  rw [List.take_of_length_le hlen]

/-! ## Lemmas: helper facts about IPv4 buckets (used in the analysis of
the anonymization claims; the collision-freedom of truncated
HMAC-SHA-256 across distinct `/16` prefixes is a cryptographic
assumption and is not provable here, so only the remaining parts are
established). -/

theorem ip_address_v4_of_parse {a : String} (ha : (parseIPv4 a).isSome) :
    ip_address a = some .v4 := by
  unfold ip_address
  cases hp : parseIPv4 a with
  | none => rw [hp] at ha; simp at ha
  | some o => rfl

theorem splitOnChar_length_of_parse {a : String} (ha : (parseIPv4 a).isSome) :
    (splitOnChar '.' a.data).length = 4 := by
  by_contra h
  unfold parseIPv4 at ha
  simp [h] at ha

/-- Unregistered helper: two textually valid IPv4 addresses sharing
their first two (textual) octets anonymize to the same bucket, for any
salt. -/
theorem anonymize_ip_eq_of_shared_16 (salt a b : String)
    (ha : (parseIPv4 a).isSome) (hb : (parseIPv4 b).isSome)
    (h0 : (splitOnChar '.' a.data).getD 0 [] = (splitOnChar '.' b.data).getD 0 [])
    (h1 : (splitOnChar '.' a.data).getD 1 [] = (splitOnChar '.' b.data).getD 1 []) :
    anonymize_ip salt a = anonymize_ip salt b := by
  unfold anonymize_ip
  rw [ip_address_v4_of_parse ha, ip_address_v4_of_parse hb]
  simp only [splitOnChar_length_of_parse ha, splitOnChar_length_of_parse hb,
    if_true, reduceIte, h0, h1]

/-- A tagged, truncated digest decomposes as tag bytes plus 16 hex
characters. -/
theorem tagged_exists (v : String) (key m : List Nat) :
    ∃ t : List Char, (v ++ ":" ++ pytake (hexdigest (hmacSha256 key m)) 16).data
      = v.data ++ ':' :: t ∧ t.length = 16 ∧ ∀ c ∈ t, isHexLower c = true := by
  refine ⟨(hexdigest (hmacSha256 key m)).data.take 16, by simp [pytake], ?_, ?_⟩
  · rw [List.length_take, hexdigest_hmac_length]; omega
  · intro c hc; exact hexdigest_hmac_hex key m (List.mem_of_mem_take hc)

/-- Unregistered helper: for every valid IPv4 address the bucket has
exactly the form `v4:` + 16 lowercase hex characters. -/
theorem anonymize_ip_v4_form (salt a : String) (ha : (parseIPv4 a).isSome) :
    ∃ t : List Char, (anonymize_ip salt a).data = 'v' :: '4' :: ':' :: t ∧
      t.length = 16 ∧ ∀ c ∈ t, isHexLower c = true := by
  unfold anonymize_ip
  rw [ip_address_v4_of_parse ha]
  simp only [splitOnChar_length_of_parse ha, reduceIte]
  exact tagged_exists "v4" _ _

set_option maxRecDepth 40000 in
/-- Unregistered helper, concrete evaluations: addresses sharing their
first two octets collide (including `203.0.114.5`, which the narrative
spec's example wrongly expects to differ — it shares `203.0` with
`203.0.113.5`); an address in a different `/16` and a salt change both
produce different buckets, for these concrete inputs. -/
theorem anonymize_ip_spec_example :
    anonymize_ip "s" "203.0.113.5" = anonymize_ip "s" "203.0.113.99" ∧
    anonymize_ip "s" "203.0.113.5" = anonymize_ip "s" "203.0.114.5" ∧
    anonymize_ip "s" "203.0.113.5" ≠ anonymize_ip "s" "203.1.113.5" ∧
    anonymize_ip "s" "203.0.113.5" ≠ anonymize_ip "t" "203.0.113.5" :=
  ⟨rfl, rfl, of_decide_eq_false rfl, of_decide_eq_false rfl⟩

/-! ## Lemmas: results of the two ingestion handlers -/

/-- `pixel` always appends exactly one row, whose bucket is
well-shaped, and answers the GIF. -/
theorem pixel_result (salt : String) (reader : Option (String → GeoOutcome)) (db : Db)
    (xff : Option String) (remote : String) (ua referer p : Option String)
    (now : DateTime) :
    ∃ r, bucketShape r.ip_bucket ∧
      pixel salt reader db xff remote ua referer p now
        = ({ db with pageviews := db.pageviews ++ [r] }, .pixelGif) := by
  refine ⟨_, ?_, rfl⟩
  show bucketShape (pytake (anonymize_ip salt (xff.getD remote)) 80)
  rw [pytake80_of_bucketShape (anonymize_ip_shape _ _)]
  exact anonymize_ip_shape _ _

/-- `event` either accepts an OPTIONS pre-flight without touching the
state, appends exactly one well-shaped `events` row, or raises without
touching the state. -/
theorem event_result (salt : String) (reader : Option (String → GeoOutcome)) (db : Db)
    (method : Method) (body : Option Json) (xff : Option String) (remote : String)
    (ua : Option String) (now : DateTime) :
    (method = .options ∧
      event salt reader db method body xff remote ua now = .ok (db, .empty200)) ∨
    (∃ r, bucketShape r.ip_bucket ∧
      event salt reader db method body xff remote ua now
        = .ok ({ db with events := db.events ++ [r] }, .okJson)) ∨
    (∃ e, event salt reader db method body xff remote ua now = .error e) := by
  cases method with
  | options => exact Or.inl ⟨rfl, rfl⟩
  | post =>
    show _ ∨ _ ∨ _
    unfold event
    generalize (match body with
      | some j => if pyTruthy j then j else Json.obj []
      | none => Json.obj []) = data
    cases data with
    | obj fields =>
      refine Or.inr (Or.inl ⟨_, ?_, rfl⟩)
      show bucketShape (pytake (anonymize_ip salt (xff.getD remote)) 80)
      rw [pytake80_of_bucketShape (anonymize_ip_shape _ _)]
      exact anonymize_ip_shape _ _
    | null => exact Or.inr (Or.inr ⟨_, rfl⟩)
    | bool b => exact Or.inr (Or.inr ⟨_, rfl⟩)
    | num n => exact Or.inr (Or.inr ⟨_, rfl⟩)
    | str s => exact Or.inr (Or.inr ⟨_, rfl⟩)
    | arr l => exact Or.inr (Or.inr ⟨_, rfl⟩)

/-! ## C8 -/

/-- The stored-bucket invariant over both tables. -/
def dbBucketsOk (db : Db) : Prop :=
  (∀ r ∈ db.pageviews, bucketShape r.ip_bucket) ∧
  (∀ r ∈ db.events, bucketShape r.ip_bucket)

/-- C8: on every record ever written by either ingestion operation the
stored ip-bucket field is the literal sentinel `invalid` or `v4:`/`v6:`
followed by exactly 16 hex characters — the shape is an invariant of
both handlers, from any state already satisfying it. -/
theorem ip_bucket_shape_invariant
    (salt : String) (reader : Option (String → GeoOutcome)) (db : Db)
    (xff : Option String) (remote : String) (ua referer p : Option String)
    (method : Method) (body : Option Json) (now : DateTime)
    (h : dbBucketsOk db) :
    dbBucketsOk (pixel salt reader db xff remote ua referer p now).1 ∧
    (∀ db' resp, event salt reader db method body xff remote ua now = .ok (db', resp) →
      dbBucketsOk db') := by
  constructor
  · obtain ⟨r, hr, heq⟩ := pixel_result salt reader db xff remote ua referer p now
    rw [heq]
    refine ⟨fun x hx => ?_, h.2⟩
    rcases List.mem_append.mp hx with hx | hx
    · exact h.1 x hx
    · rw [List.mem_singleton.mp hx]; exact hr
  · intro db' resp heq
    rcases event_result salt reader db method body xff remote ua now with
      ⟨_, he⟩ | ⟨r, hr, he⟩ | ⟨e, he⟩
    · rw [he] at heq
      obtain ⟨h1, _⟩ := Prod.mk.injEq .. ▸ Except.ok.inj heq
      exact h1 ▸ h
    · rw [he] at heq
      obtain ⟨h1, _⟩ := Prod.mk.injEq .. ▸ Except.ok.inj heq
      subst h1
      refine ⟨h.1, fun x hx => ?_⟩
      rcases List.mem_append.mp hx with hx | hx
      · exact h.2 x hx
      · rw [List.mem_singleton.mp hx]; exact hr
    · rw [he] at heq; exact absurd heq (by simp)

/-- Witness for C8 at a concrete empty store and concrete requests. -/
theorem ip_bucket_shape_invariant_witness :
    dbBucketsOk (pixel "s" none ⟨[], []⟩ (some "203.0.113.5") "10.0.0.1" none none none
      ⟨2026, 10, 12, 0, 0, 0⟩).1 ∧
    (∀ db' resp, event "s" none ⟨[], []⟩ .post none (some "203.0.113.5") "10.0.0.1" none
        ⟨2026, 10, 12, 0, 0, 0⟩ = .ok (db', resp) → dbBucketsOk db') :=
  ip_bucket_shape_invariant "s" none ⟨[], []⟩ (some "203.0.113.5") "10.0.0.1"
    none none none .post none ⟨2026, 10, 12, 0, 0, 0⟩
    ⟨fun r hr => by simp at hr, fun r hr => by simp at hr⟩

/-! ## C10 -/

/-- C10: the fingerprint's source address is the verbatim
`X-Forwarded-For` value when the header is present (so a
comma-separated list value yields the `invalid` bucket), else the
transport remote address; both the bucket and the country code are
derived from that same single address. -/
theorem fingerprint_source_address_spec
    (salt : String) (reader : Option (String → GeoOutcome))
    (xff : Option String) (remote : String) (ua : Option String) :
    (request_fingerprint salt reader xff remote ua).ip_bucket
      = anonymize_ip salt (xff.getD remote) ∧
    (request_fingerprint salt reader xff remote ua).country
      = get_country_from_ip reader (xff.getD remote) ∧
    (∀ s, xff = some s → xff.getD remote = s) ∧
    (xff = none → xff.getD remote = remote) ∧
    anonymize_ip salt "203.0.113.5, 70.41.3.18" = "invalid" := by
  refine ⟨rfl, rfl, ?_, ?_, ?_⟩
  · intro s hs; rw [hs]; rfl
  · intro hn; rw [hn]; rfl
  · unfold anonymize_ip
    rw [show ip_address "203.0.113.5, 70.41.3.18" = none from rfl]

/-- Witness for C10 with a present comma-separated header. -/
theorem fingerprint_source_address_witness :
    (request_fingerprint "s" none (some "203.0.113.5, 70.41.3.18") "10.0.0.1" none).ip_bucket
      = anonymize_ip "s" ((some "203.0.113.5, 70.41.3.18").getD "10.0.0.1") ∧
    ((some "203.0.113.5, 70.41.3.18").getD "10.0.0.1") = "203.0.113.5, 70.41.3.18" ∧
    anonymize_ip "s" "203.0.113.5, 70.41.3.18" = "invalid" :=
  have h := fingerprint_source_address_spec "s" none
    (some "203.0.113.5, 70.41.3.18") "10.0.0.1" none
  ⟨h.1, h.2.2.1 "203.0.113.5, 70.41.3.18" rfl, h.2.2.2.2⟩

/-! ## C2 (code bug)

The ingestion design is "never raise on malformed input", but a body
that is valid JSON and truthy yet not an object (for instance the array
`[1]`) reaches `data.get` and raises `AttributeError`; an absent or
non-JSON body, by contrast, is accepted. -/

/-- C2: evaluating `event` at the failing input: a parsed JSON array
body makes the handler raise, while an unparseable body succeeds. -/
theorem event_raises_on_nonobject_json_body :
    event "s" none ⟨[], []⟩ .post (some (Json.arr [Json.num 1])) none "203.0.113.5" none
      ⟨2026, 10, 12, 0, 0, 0⟩ = .error "AttributeError: no attribute get" ∧
    (event "s" none ⟨[], []⟩ .post none none "203.0.113.5" none
      ⟨2026, 10, 12, 0, 0, 0⟩).isOk = true :=
  ⟨rfl, rfl⟩

/-! ## C5 (code bug)

Stored timestamps are ISO text `YYYY-MM-DDTHH:MM:SS+00:00` while the
purge cutoff `datetime('now', '-N days')` is sqlite text
`YYYY-MM-DD HH:MM:SS`; under TEXT comparison `'T' > ' '`, so a stored
stamp on the cutoff's calendar day always compares greater than the
cutoff and is retained even when it is strictly older than the cutoff
instant. Day-granular deletion (the spec's 181-days example) still
works. -/

/-- A pageview row stamped at instant `t` (non-timestamp fields fixed). -/
def c5Row (t : DateTime) : PageviewRow :=
  ⟨fmtIso t, "/", none, "Other", "Other", "invalid", "UNK"⟩

/-- C5: a record strictly older than the cutoff instant but on the same
calendar day is retained by the purge, contradicting strict-age
deletion; a record on an earlier day is deleted as specified. -/
theorem purge_retains_strictly_older_same_day_record :
    dtLt ⟨2026, 4, 15, 9, 0, 0⟩ ⟨2026, 4, 15, 10, 0, 0⟩ = true ∧
    (before_purge ⟨[c5Row ⟨2026, 4, 15, 9, 0, 0⟩], []⟩ ⟨2026, 4, 15, 10, 0, 0⟩).pageviews
      = [c5Row ⟨2026, 4, 15, 9, 0, 0⟩] ∧
    (before_purge ⟨[c5Row ⟨2026, 4, 14, 9, 0, 0⟩], []⟩ ⟨2026, 4, 15, 10, 0, 0⟩).pageviews
      = [] :=
  ⟨rfl, rfl, rfl⟩

/-! ## C6 -/

/-- The probe-then-add fold never errors, preserves and completes the
column list, and is the identity once every name is present. -/
theorem foldlM_probeAdd_ok (names : List String) :
    ∀ cols : List String, ∃ cols',
      names.foldlM probeAddColumn cols = .ok cols' ∧
      (∀ c ∈ cols, c ∈ cols') ∧ (∀ c ∈ names, c ∈ cols') ∧
      ((∀ c ∈ names, c ∈ cols) → cols' = cols) := by
  induction names with
  | nil =>
    intro cols
    exact ⟨cols, rfl, fun c h => h, by simp, fun _ => rfl⟩
  | cons n ns ih =>
    intro cols
    by_cases hn : n ∈ cols
    · have hstep : probeAddColumn cols n = .ok cols := by simp [probeAddColumn, hn]
      obtain ⟨cols', h1, h2, h3, h4⟩ := ih cols
      refine ⟨cols', ?_, h2, ?_, ?_⟩
      · rw [List.foldlM_cons, hstep]; exact h1
      · intro c hc
        rcases List.mem_cons.mp hc with hc | hc
        · exact hc ▸ h2 n hn
        · exact h3 c hc
      · intro hall; exact h4 (fun c hc => hall c (List.mem_cons_of_mem n hc))
    · have hstep : probeAddColumn cols n = .ok (cols ++ [n]) := by
        simp [probeAddColumn, alterAddColumn, hn]
      obtain ⟨cols', h1, h2, h3, h4⟩ := ih (cols ++ [n])
      refine ⟨cols', ?_, ?_, ?_, ?_⟩
      · rw [List.foldlM_cons, hstep]; exact h1
      · intro c hc; exact h2 c (List.mem_append_left _ hc)
      · intro c hc
        rcases List.mem_cons.mp hc with hc | hc
        · exact hc ▸ h2 n (List.mem_append_right _ (List.mem_singleton_self n))
        · exact h3 c hc
      · intro hall; exact absurd (hall n (List.mem_cons_self n ns)) hn

/-- C6: `ensure_columns` never errors: from any storage state one run
yields both tables with every expected column, a second run raises no
error and changes nothing, and the stored rows are untouched. -/
theorem ensure_columns_idempotent_and_safe (s : Storage) :
    ∃ s₁, ensure_columns s = .ok s₁ ∧
      (∃ pv, s₁.pvCols = some pv ∧ ∀ c ∈ pvExpected, c ∈ pv) ∧
      (∃ ev, s₁.evCols = some ev ∧ ∀ c ∈ evExpected, c ∈ ev) ∧
      ensure_columns s₁ = .ok s₁ ∧
      s₁.pvRows = s.pvRows ∧ s₁.evRows = s.evRows := by
  obtain ⟨pv, hpv1, _, hpv3, _⟩ :=
    foldlM_probeAdd_ok pvExpected (createIfMissing s.pvCols pvBaseCols)
  obtain ⟨ev, hev1, _, hev3, _⟩ :=
    foldlM_probeAdd_ok evExpected (createIfMissing s.evCols evBaseCols)
  refine ⟨⟨some pv, some ev, s.pvRows, s.evRows⟩, ?_, ⟨pv, rfl, hpv3⟩, ⟨ev, rfl, hev3⟩,
    ?_, rfl, rfl⟩
  · unfold ensure_columns
    rw [hpv1, hev1]
  · obtain ⟨pv2, g1, _, _, g4⟩ := foldlM_probeAdd_ok pvExpected pv
    obtain ⟨ev2, k1, _, _, k4⟩ := foldlM_probeAdd_ok evExpected ev
    unfold ensure_columns
    simp only [createIfMissing, Option.getD_some]
    rw [g1, k1, g4 hpv3, k4 hev3]

/-! ## C9 -/

/-- C9: each ingestion call appends at most one row to its own table
and leaves every existing row (and the other table) unchanged; an
OPTIONS pre-flight to `/event` succeeds and appends nothing. -/
theorem ingest_at_most_one_insert
    (salt : String) (reader : Option (String → GeoOutcome)) (db : Db)
    (xff : Option String) (remote : String) (ua referer p : Option String)
    (method : Method) (body : Option Json) (now : DateTime) :
    (∃ r, (pixel salt reader db xff remote ua referer p now).1.pageviews
      = db.pageviews ++ [r]) ∧
    (pixel salt reader db xff remote ua referer p now).1.events = db.events ∧
    event salt reader db .options body xff remote ua now = .ok (db, .empty200) ∧
    (∀ db' resp, event salt reader db method body xff remote ua now = .ok (db', resp) →
      db'.pageviews = db.pageviews ∧
      (db'.events = db.events ∨ ∃ r, db'.events = db.events ++ [r])) := by
  obtain ⟨r, _, heq⟩ := pixel_result salt reader db xff remote ua referer p now
  refine ⟨⟨r, by rw [heq]⟩, by rw [heq], rfl, ?_⟩
  intro db' resp hev
  rcases event_result salt reader db method body xff remote ua now with
    ⟨_, he⟩ | ⟨r2, _, he⟩ | ⟨e, he⟩
  · rw [he] at hev
    obtain ⟨h1, _⟩ := Prod.mk.injEq .. ▸ Except.ok.inj hev
    exact h1 ▸ ⟨rfl, Or.inl rfl⟩
  · rw [he] at hev
    obtain ⟨h1, _⟩ := Prod.mk.injEq .. ▸ Except.ok.inj hev
    subst h1
    exact ⟨rfl, Or.inr ⟨r2, rfl⟩⟩
  · rw [he] at hev; exact absurd hev (by simp)

/-- Witness for C9 at an empty store: the OPTIONS case applied to its
own (reflexivity-checked) success equation. -/
theorem ingest_at_most_one_insert_witness :
    (⟨[], []⟩ : Db).pageviews = (⟨[], []⟩ : Db).pageviews ∧
    ((⟨[], []⟩ : Db).events = (⟨[], []⟩ : Db).events ∨
      ∃ r, (⟨[], []⟩ : Db).events = (⟨[], []⟩ : Db).events ++ [r]) :=
  (ingest_at_most_one_insert "s" none ⟨[], []⟩ none "10.0.0.1" none none none .options none
      ⟨2026, 10, 12, 0, 0, 0⟩).2.2.2 ⟨[], []⟩ .empty200 rfl

/-! ## C4 (corrected)

The cascade description is exact; the claim's "in particular" clauses,
however, omit the Firefox rule's precedence: a user agent containing
`firefox` as well as `chrome`/`safari`/`edg` is classified `Firefox`,
so they only hold on agents not matched by the Firefox rule. -/

/-- C4 counterexample: an agent containing `chrome` and `safari`
(neither `chromium` nor `edg`) that is nevertheless not `Chrome`,
because it also contains `firefox`. -/
theorem chrome_particular_fails_on_firefox_ua :
    strContains (pyLower "Mozilla/5.0 firefox chrome safari") "chrome" = true ∧
    strContains (pyLower "Mozilla/5.0 firefox chrome safari") "safari" = true ∧
    strContains (pyLower "Mozilla/5.0 firefox chrome safari") "chromium" = false ∧
    strContains (pyLower "Mozilla/5.0 firefox chrome safari") "edg" = false ∧
    (parse_user_agent "Mozilla/5.0 firefox chrome safari").1 = "Firefox" ∧
    (parse_user_agent "Mozilla/5.0 firefox chrome safari").1 ≠ "Chrome" :=
  ⟨rfl, rfl, rfl, rfl, rfl, by decide⟩

/-- C4 (amended): the browser is resolved by case-insensitive substring
matching in the fixed priority order Firefox (excluding seamonkey),
Chrome (excluding chromium/edg), Safari (excluding chrome), Edge,
Chromium, else Other — characterized as an iff per outcome — and the
claim's particular consequences hold for every agent not matched by an
earlier rule. -/
theorem browser_priority_cascade (ua : String) :
    ((parse_user_agent ua).1 = "Firefox" ↔
      (strContains (pyLower ua) "firefox" ∧ ¬ strContains (pyLower ua) "seamonkey")) ∧
    ((parse_user_agent ua).1 = "Chrome" ↔
      (¬ (strContains (pyLower ua) "firefox" ∧ ¬ strContains (pyLower ua) "seamonkey") ∧
       (strContains (pyLower ua) "chrome" ∧ ¬ strContains (pyLower ua) "chromium" ∧
        ¬ strContains (pyLower ua) "edg"))) ∧
    ((parse_user_agent ua).1 = "Safari" ↔
      (¬ (strContains (pyLower ua) "firefox" ∧ ¬ strContains (pyLower ua) "seamonkey") ∧
       ¬ (strContains (pyLower ua) "chrome" ∧ ¬ strContains (pyLower ua) "chromium" ∧
          ¬ strContains (pyLower ua) "edg") ∧
       (strContains (pyLower ua) "safari" ∧ ¬ strContains (pyLower ua) "chrome"))) ∧
    ((parse_user_agent ua).1 = "Edge" ↔
      (¬ (strContains (pyLower ua) "firefox" ∧ ¬ strContains (pyLower ua) "seamonkey") ∧
       ¬ (strContains (pyLower ua) "chrome" ∧ ¬ strContains (pyLower ua) "chromium" ∧
          ¬ strContains (pyLower ua) "edg") ∧
       ¬ (strContains (pyLower ua) "safari" ∧ ¬ strContains (pyLower ua) "chrome") ∧
       strContains (pyLower ua) "edg")) ∧
    ((parse_user_agent ua).1 = "Chromium" ↔
      (¬ (strContains (pyLower ua) "firefox" ∧ ¬ strContains (pyLower ua) "seamonkey") ∧
       ¬ (strContains (pyLower ua) "chrome" ∧ ¬ strContains (pyLower ua) "chromium" ∧
          ¬ strContains (pyLower ua) "edg") ∧
       ¬ (strContains (pyLower ua) "safari" ∧ ¬ strContains (pyLower ua) "chrome") ∧
       ¬ strContains (pyLower ua) "edg" ∧ strContains (pyLower ua) "chromium")) ∧
    ((parse_user_agent ua).1 = "Other" ↔
      (¬ (strContains (pyLower ua) "firefox" ∧ ¬ strContains (pyLower ua) "seamonkey") ∧
       ¬ (strContains (pyLower ua) "chrome" ∧ ¬ strContains (pyLower ua) "chromium" ∧
          ¬ strContains (pyLower ua) "edg") ∧
       ¬ (strContains (pyLower ua) "safari" ∧ ¬ strContains (pyLower ua) "chrome") ∧
       ¬ strContains (pyLower ua) "edg" ∧ ¬ strContains (pyLower ua) "chromium")) ∧
    (¬ (strContains (pyLower ua) "firefox" ∧ ¬ strContains (pyLower ua) "seamonkey") →
      strContains (pyLower ua) "chrome" → ¬ strContains (pyLower ua) "chromium" →
      ¬ strContains (pyLower ua) "edg" → (parse_user_agent ua).1 = "Chrome") ∧
    (¬ (strContains (pyLower ua) "firefox" ∧ ¬ strContains (pyLower ua) "seamonkey") →
      strContains (pyLower ua) "edg" → strContains (pyLower ua) "chrome" →
      (parse_user_agent ua).1 = "Edge") := by
  simp only [parse_user_agent]
  split_ifs with h1 h2 h3 h4 h5 <;> simp_all

/-- Witness for C4 on the spec's Edge example. -/
theorem browser_priority_cascade_witness :
    (parse_user_agent "Mozilla/5.0 Edg/120 Chrome/1").1 = "Edge" :=
  (browser_priority_cascade "Mozilla/5.0 Edg/120 Chrome/1").2.2.2.2.2.2.2
    (by decide) (by decide) (by decide)

/-! ## C7 -/

theorem foldl_min_le (cs : List Nat) : ∀ c, cs.foldl Nat.min c ≤ c := by
  induction cs with
  | nil => intro c; exact Nat.le_refl c
  | cons x xs ih => intro c; exact Nat.le_trans (ih (Nat.min c x)) (Nat.min_le_left c x)

theorem le_foldl_max (cs : List Nat) : ∀ c, c ≤ cs.foldl Nat.max c := by
  induction cs with
  | nil => intro c; exact Nat.le_refl c
  | cons x xs ih => intro c; exact Nat.le_trans (Nat.le_max_left c x) (ih (Nat.max c x))

theorem minCount_le_maxCount {l : List Nat} (h : l ≠ []) : minCount l ≤ maxCount l := by
  cases l with
  | nil => exact absurd rfl h
  | cons c cs =>
    exact Nat.le_trans (foldl_min_le cs c) (le_foldl_max cs c)

theorem spanC_pos (counts : List Nat) : 0 < spanC counts := by
  simp only [spanC]
  by_cases h : maxCount counts = 0 <;> simp [h] <;> split <;> omega

theorem spanC_eq {counts : List Nat} (hne : counts ≠ [])
    (h : maxCount counts ≠ minCount counts) :
    spanC counts = maxCount counts - minCount counts := by
  have hle := minCount_le_maxCount hne
  have hmax0 : ¬ maxCount counts = 0 := by omega
  simp only [spanC]
  rw [if_neg hmax0, if_neg (by omega)]

/-- The y-coordinate map applied to each count of a nonempty input. -/
theorem build_sparkline_ys (p : String × Nat) (rest : List (String × Nat))
    (width height : ℚ) :
    (build_sparkline (p :: rest) width height).ys
      = (countsOf (p :: rest)).map (fun c =>
          height - (((c - minCount (countsOf (p :: rest)) : Nat) : ℚ) /
            ((spanC (countsOf (p :: rest)) : Nat) : ℚ)) * (height - 4) - 2) := rfl

/-- C7: the sparkline's empty case, the linear y-mapping's endpoint
values (`min ↦ height-2` always, `max ↦ 2` when the series is not
constant), equal counts sharing a y, constant series rendering flat at
`height-2`, and the returned last value. -/
theorem build_sparkline_spec (points : List (String × Nat)) (width height : ℚ) :
    (points = [] → build_sparkline points width height = ⟨[], [], 0⟩) ∧
    (∀ i j : Nat, (countsOf points)[i]? = (countsOf points)[j]? →
      (build_sparkline points width height).ys[i]?
        = (build_sparkline points width height).ys[j]?) ∧
    (∀ i : Nat, (countsOf points)[i]? = some (minCount (countsOf points)) →
      (build_sparkline points width height).ys[i]? = some (height - 2)) ∧
    (maxCount (countsOf points) ≠ minCount (countsOf points) →
      ∀ i : Nat, (countsOf points)[i]? = some (maxCount (countsOf points)) →
        (build_sparkline points width height).ys[i]? = some 2) ∧
    ((∀ c ∈ countsOf points, c = minCount (countsOf points)) →
      ∀ i : Nat, i < points.length →
        (build_sparkline points width height).ys[i]? = some (height - 2)) ∧
    (∀ hne : points ≠ [],
      (build_sparkline points width height).last_count = (points.getLast hne).2) := by
  cases points with
  | nil =>
    refine ⟨fun _ => rfl, ?_, ?_, ?_, ?_, ?_⟩
    · intro i j _; rfl
    · intro i hi; simp [countsOf] at hi
    · intro _ i hi; simp [countsOf] at hi
    · intro _ i hi; simp at hi
    · intro hne; exact absurd rfl hne
  | cons p rest =>
    have hkey : ∀ i : Nat,
        (countsOf (p :: rest))[i]? = some (minCount (countsOf (p :: rest))) →
        (build_sparkline (p :: rest) width height).ys[i]? = some (height - 2) := by
      intro i hi
      rw [build_sparkline_ys, List.getElem?_map, hi]
      simp [Nat.sub_self]
    refine ⟨fun h => absurd h (List.cons_ne_nil p rest), ?_, hkey, ?_, ?_, ?_⟩
    · intro i j hij
      rw [build_sparkline_ys, List.getElem?_map, List.getElem?_map, hij]
    · intro hmm i hi
      have hne : countsOf (p :: rest) ≠ [] := by simp [countsOf]
      rw [build_sparkline_ys, List.getElem?_map, hi]
      have hle := minCount_le_maxCount hne
      have hcast : ((maxCount (countsOf (p :: rest))
          - minCount (countsOf (p :: rest)) : Nat) : ℚ) ≠ 0 := by
        exact_mod_cast (by omega :
          maxCount (countsOf (p :: rest)) - minCount (countsOf (p :: rest)) ≠ 0)
      rw [spanC_eq hne hmm]
      simp only [Option.map_some']
      rw [div_self hcast]
      norm_num
    · intro hall i hilt
      have hlen : i < (countsOf (p :: rest)).length := by
        simpa [countsOf] using hilt
      have hmem : (countsOf (p :: rest))[i] ∈ countsOf (p :: rest) :=
        List.getElem_mem hlen
      have := hall _ hmem
      exact hkey i (by rw [List.getElem?_eq_getElem hlen, this])
    · intro _; rfl

/-- Witness for C7 on the spec's `[2, 5, 5]` daily series. -/
theorem build_sparkline_spec_witness :
    (build_sparkline [("d1", 2), ("d2", 5), ("d3", 5)] 320 60).ys[1]?
      = (build_sparkline [("d1", 2), ("d2", 5), ("d3", 5)] 320 60).ys[2]? ∧
    (build_sparkline [("d1", 2), ("d2", 5), ("d3", 5)] 320 60).ys[1]? = some 2 ∧
    (build_sparkline [("d1", 2), ("d2", 5), ("d3", 5)] 320 60).ys[0]? = some (60 - 2) ∧
    (build_sparkline [("d1", 2), ("d2", 5), ("d3", 5)] 320 60).last_count = 5 :=
  have h := build_sparkline_spec [("d1", 2), ("d2", 5), ("d3", 5)] 320 60
  ⟨h.2.1 1 2 (by decide),
   h.2.2.2.1 (by decide) 1 (by decide),
   h.2.2.1 0 (by decide),
   (h.2.2.2.2.2 (by decide)).trans rfl⟩

/-! ## C1 (corrected)

`total_views_30d` sums the counts of the `LIMIT 50`-capped top-paths
query, so with more than 50 distinct paths in the window it undercounts
the window's row total; with at most 50 distinct paths the two agree. -/

theorem insertDesc_perm (x : String × Nat) (l : List (String × Nat)) :
    List.Perm (insertDesc x l) (x :: l) := by
  induction l with
  | nil => exact List.Perm.refl _
  | cons y ys ih =>
    simp only [insertDesc]
    split
    · exact List.Perm.refl _
    · exact (ih.cons y).trans (List.Perm.swap x y ys)

theorem sortByCountDesc_perm (l : List (String × Nat)) :
    List.Perm (sortByCountDesc l) l := by
  induction l with
  | nil => exact List.Perm.refl _
  | cons x xs ih =>
    exact (insertDesc_perm x (sortByCountDesc xs)).trans (ih.cons x)

/-- C1 (amended): the dashboard's total page-views scalar equals the
number of pageview rows in the 30-day window whenever the window has at
most 50 distinct paths (the query's cap); beyond the cap it sums only
the 50 returned groups. -/
theorem total_views_eq_window_rowcount_of_few_paths (db : Db) (cutoff : String)
    (h : (pathGroups (windowPageviews db cutoff)).length ≤ 50) :
    total_views_30d db cutoff = (windowPageviews db cutoff).length := by
  unfold total_views_30d recent_paths
  have hperm := sortByCountDesc_perm (pathGroups (windowPageviews db cutoff))
  rw [List.take_of_length_le (le_trans (le_of_eq hperm.length_eq) h)]
  rw [(hperm.map (fun g => g.2)).sum_eq]
  unfold pathGroups
  rw [List.map_map]
  simpa using
    List.sum_map_count_dedup_eq_length ((windowPageviews db cutoff).map (fun r => r.path))

/-- A store with 51 window rows on 51 distinct paths. -/
def manyPathsDb : Db :=
  ⟨(List.range 51).map (fun i =>
    ⟨"2026-10-01T00:00:00+00:00", "p" ++ toString i, none, "Other", "Other",
     "invalid", "UNK"⟩), []⟩

/-- The text of `datetime('now', '-30 days')` for the scenario. -/
def c1Cutoff : String := "2026-09-12 00:00:00"

/-- C1 counterexample: with 51 distinct window paths the derived scalar
is 50 while the window holds 51 pageview rows. -/
theorem total_views_misses_rows_beyond_cap :
    total_views_30d manyPathsDb c1Cutoff = 50 ∧
    (windowPageviews manyPathsDb c1Cutoff).length = 51 ∧
    total_views_30d manyPathsDb c1Cutoff ≠ (windowPageviews manyPathsDb c1Cutoff).length :=
  ⟨by decide, by decide, by decide⟩

/-- A store with 3 window rows on 2 distinct paths. -/
def fewPathsDb : Db :=
  ⟨[⟨"2026-10-01T00:00:00+00:00", "/a", none, "Other", "Other", "invalid", "UNK"⟩,
    ⟨"2026-10-02T00:00:00+00:00", "/b", none, "Other", "Other", "invalid", "UNK"⟩,
    ⟨"2026-10-03T00:00:00+00:00", "/a", none, "Other", "Other", "invalid", "UNK"⟩], []⟩

/-- Witness for C1's amended statement on a 3-row store. -/
theorem total_views_eq_window_rowcount_witness :
    (pathGroups (windowPageviews fewPathsDb c1Cutoff)).length ≤ 50 ∧
    total_views_30d fewPathsDb c1Cutoff = (windowPageviews fewPathsDb c1Cutoff).length :=
  ⟨by decide, total_views_eq_window_rowcount_of_few_paths fewPathsDb c1Cutoff (by decide)⟩

end Analytics
